import Mathlib

/-!
# Verification of the Rust demonstration programs in this repository

Each snippet of the repository is a standalone Rust program.  Every section
below shallowly embeds one program's data model and operations as executable
Lean definitions (byte values and machine integers become `Nat`, fallible
operations return `Except`/`Option`, mutation becomes explicit state passing)
and proves the specification claims about them.
-/

/-! ## src/2025-10-29: `ConstString<N>`, a fixed-size string buffer -/

namespace ConstStr

/-- The UTF-8 encoding of a single character, byte values as `Nat`.
This is the encoding a Rust `str` stores: 1 to 4 bytes per scalar value. -/
def utf8EncodeCharN (c : Char) : List Nat :=
  let v := c.toNat
  if v < 0x80 then [v]
  else if v < 0x800 then
    [0xC0 ||| (v >>> 6), 0x80 ||| (v &&& 0x3F)]
  else if v < 0x10000 then
    [0xE0 ||| (v >>> 12), 0x80 ||| ((v >>> 6) &&& 0x3F), 0x80 ||| (v &&& 0x3F)]
  else
    [0xF0 ||| (v >>> 18), 0x80 ||| ((v >>> 12) &&& 0x3F),
     0x80 ||| ((v >>> 6) &&& 0x3F), 0x80 ||| (v &&& 0x3F)]

/-- `s.as_bytes()`: the UTF-8 bytes of a string slice. -/
def strBytes (s : String) : List Nat := s.data.flatMap utf8EncodeCharN

/-- Rust `str::is_char_boundary(index)` (from the standard library, which the
snippet calls): `index == 0` is always a boundary; past the end only
`index == len`; otherwise the byte at `index` must not be a continuation
byte (`b as i8 >= -64`, i.e. `b < 0x80 || b >= 0xC0`). -/
def isCharBoundary (s : String) (i : Nat) : Bool :=
  if i = 0 then true
  else
    match (strBytes s)[i]? with
    | none => decide (i = (strBytes s).length)
    | some b => decide (b < 0x80) || decide (0xC0 ≤ b)

/-- The fixed-size buffer: `data: [u8; N]` (a list of length `N`),
`len: usize`. -/
structure ConstString (N : Nat) where
  data : List Nat
  len : Nat
  deriving DecidableEq

/-- `ConstString::new()`: zero-filled buffer, `len = 0`. -/
def ConstString.new (N : Nat) : ConstString N :=
  { data := List.replicate N 0, len := 0 }

/-- The copy loop of `push_str`:
`for (i, &byte) in bytes.iter().enumerate() { self.data[self.len + i] = byte }`,
unrolled as a recursion that writes the next byte at `pos` and advances. -/
def writeBytes (d : List Nat) (pos : Nat) (bs : List Nat) : List Nat :=
  match bs with
  | [] => d
  | b :: rest => writeBytes (d.set pos b) (pos + 1) rest

/-- `ConstString::push_str`: length check, then char-boundary check, then the
copy loop and the `len` update.  The pair returns the Rust `Result` together
with the buffer after the call (`self` is `&mut`). -/
def ConstString.push_str {N : Nat} (self : ConstString N) (s : String) :
    Except String Unit × ConstString N :=
  let bytes := strBytes s
  if self.len + bytes.length > N then
    (Except.error "String too long for buffer", self)
  else if !isCharBoundary s 0 then
    (Except.error "Invalid UTF-8 sequence", self)
  else
    (Except.ok (),
     { data := writeBytes self.data self.len bytes,
       len := self.len + bytes.length })

/-- `Deref::deref`: the bytes `&self.data[..self.len]`, which
`str::from_utf8_unchecked` reinterprets (without copying) as `&str`. -/
def ConstString.deref {N : Nat} (self : ConstString N) : List Nat :=
  self.data.take self.len

/-- A sequence of `push_str` calls starting from a given buffer; returns the
final buffer and the sublist of arguments whose call returned `Ok`. -/
def runPushes {N : Nat} (cs : ConstString N) : List String → ConstString N × List String
  | [] => (cs, [])
  | s :: rest =>
    match cs.push_str s with
    | (Except.ok _, cs') =>
      let r := runPushes cs' rest
      (r.1, s :: r.2)
    | (Except.error _, cs') => runPushes cs' rest

/-! ### Lemmas about the copy loop -/

theorem isCharBoundary_zero (s : String) : isCharBoundary s 0 = true := by
  simp [isCharBoundary]

theorem length_writeBytes (bs : List Nat) :
    ∀ (d : List Nat) (pos : Nat), (writeBytes d pos bs).length = d.length := by
  induction bs with
  | nil => intro d pos; rfl
  | cons b rest ih =>
    intro d pos
    simp [writeBytes, ih, List.length_set]

theorem take_writeBytes_of_le (bs : List Nat) :
    ∀ (d : List Nat) (pos k : Nat), k ≤ pos →
      (writeBytes d pos bs).take k = d.take k := by
  induction bs with
  | nil => intro d pos k _; rfl
  | cons b rest ih =>
    intro d pos k hk
    rw [writeBytes, ih (d.set pos b) (pos + 1) k (Nat.le_succ_of_le hk)]
    rcases Nat.lt_or_ge k (pos + 1) with h | h
    · rcases Nat.lt_or_ge k pos with h' | h'
      · exact List.take_set_of_lt _ _ h'
      · have hkp : k = pos := Nat.le_antisymm hk h'
        subst hkp
        rw [List.set_take]
        exact List.set_eq_of_length_le (by simp [List.length_take]) ..
    · omega

theorem take_writeBytes_full (bs : List Nat) :
    ∀ (d : List Nat) (pos : Nat), pos + bs.length ≤ d.length →
      (writeBytes d pos bs).take (pos + bs.length) = d.take pos ++ bs := by
  induction bs with
  | nil => intro d pos _; simp [writeBytes]
  | cons b rest ih =>
    intro d pos hlen
    have hpos : pos < d.length := by simp at hlen; omega
    have hlen' : (pos + 1) + rest.length ≤ (d.set pos b).length := by
      simp [List.length_set]; simp at hlen; omega
    have harith : pos + (b :: rest).length = (pos + 1) + rest.length := by
      simp; omega
    rw [writeBytes, harith, ih (d.set pos b) (pos + 1) hlen']
    have htake : (d.set pos b).take (pos + 1) = d.take pos ++ [b] := by
      rw [List.take_succ]
      congr 1
      · rw [List.set_take]
        exact List.set_eq_of_length_le (by simp [List.length_take]) ..
      · rw [List.getElem?_set_self hpos]
        rfl
    rw [htake]
    simp

/-! ### Claim theorems for `push_str` -/

theorem push_str_err_iff {N : Nat} (cs : ConstString N) (s : String) :
    (cs.push_str s).1 = Except.error "String too long for buffer" ↔
      N < cs.len + (strBytes s).length := by
  unfold ConstString.push_str
  rcases Nat.lt_or_ge N (cs.len + (strBytes s).length) with h | h
  · simp [h]
  · have hng : ¬ (cs.len + (strBytes s).length > N) := by omega
    simp [hng, isCharBoundary_zero, h]

theorem push_str_ok {N : Nat} (cs : ConstString N) (s : String)
    (h : cs.len + (strBytes s).length ≤ N) :
    cs.push_str s =
      (Except.ok (),
       { data := writeBytes cs.data cs.len (strBytes s),
         len := cs.len + (strBytes s).length }) := by
  unfold ConstString.push_str
  have hng : ¬ (cs.len + (strBytes s).length > N) := by omega
  simp [hng, isCharBoundary_zero]

theorem push_str_too_long {N : Nat} (cs : ConstString N) (s : String)
    (h : N < cs.len + (strBytes s).length) :
    cs.push_str s = (Except.error "String too long for buffer", cs) := by
  unfold ConstString.push_str
  simp [h]

/-- C1: for every `ConstString<N>` buffer (`N ≥ 1`) and every string slice
`s`, `push_str(s)` returns `Err("String too long for buffer")` exactly when
`len + s.len() > N`; otherwise it returns `Ok(())` and `len` increases by the
byte length of `s`; the `"Invalid UTF-8 sequence"` branch is never taken. -/
theorem push_str_result_spec {N : Nat} (hN : 1 ≤ N) (cs : ConstString N) (s : String) :
    ((cs.push_str s).1 = Except.error "String too long for buffer" ↔
      N < cs.len + (strBytes s).length) ∧
    (cs.len + (strBytes s).length ≤ N →
      (cs.push_str s).1 = Except.ok () ∧
      (cs.push_str s).2.len = cs.len + (strBytes s).length) ∧
    (cs.push_str s).1 ≠ Except.error "Invalid UTF-8 sequence" := by
  refine ⟨push_str_err_iff cs s, fun h => ?_, ?_⟩
  · rw [push_str_ok cs s h]
    exact ⟨rfl, rfl⟩
  · rcases Nat.lt_or_ge N (cs.len + (strBytes s).length) with h | h
    · rw [push_str_too_long cs s h]
      simp
    · rw [push_str_ok cs s h]
      simp

/-- Witness for C1 at `N = 16`, empty buffer, `s = "Hello, "`. -/
theorem push_str_result_spec_witness :
    ((ConstString.new 16).push_str "Hello, ").1 = Except.ok () ∧
    ((ConstString.new 16).push_str "Hello, ").2.len =
      (ConstString.new 16).len + (strBytes "Hello, ").length :=
  (push_str_result_spec (by decide) (ConstString.new 16) "Hello, ").2.1 (by decide)

/-- C10: whenever `push_str` returns an `Err`, the buffer is left completely
unchanged (both `data` and `len`): all checks happen before any byte is
copied. -/
theorem push_str_err_unchanged {N : Nat} (cs : ConstString N) (s : String)
    (e : String) (h : (cs.push_str s).1 = Except.error e) :
    (cs.push_str s).2 = cs := by
  rcases Nat.lt_or_ge N (cs.len + (strBytes s).length) with hlen | hlen
  · rw [push_str_too_long cs s hlen]
  · rw [push_str_ok cs s hlen] at h
    exact absurd h (by simp)

/-- Witness for C10 at `N = 5`, empty buffer, `s = "Too long"` (8 bytes). -/
theorem push_str_err_unchanged_witness :
    ((ConstString.new 5).push_str "Too long").1 =
      Except.error "String too long for buffer" ∧
    ((ConstString.new 5).push_str "Too long").2 = ConstString.new 5 :=
  ⟨rfl, push_str_err_unchanged (ConstString.new 5) "Too long"
      "String too long for buffer" rfl⟩

/-! ### The buffer invariant (C9) -/

theorem strBytes_append (a b : String) :
    strBytes (a ++ b) = strBytes a ++ strBytes b := by
  simp [strBytes, String.data_append]

theorem flatMap_strBytes_is_encoding (acc : List String) :
    ∃ t : String, acc.flatMap strBytes = strBytes t := by
  induction acc with
  | nil => exact ⟨"", rfl⟩
  | cons a rest ih =>
    rcases ih with ⟨t, ht⟩
    exact ⟨a ++ t, by simp [strBytes_append, ht]⟩

theorem runPushes_inv {N : Nat} (ss : List String) :
    ∀ cs : ConstString N, cs.data.length = N → cs.len ≤ N →
      (runPushes cs ss).1.data.length = N ∧
      (runPushes cs ss).1.len ≤ N ∧
      (runPushes cs ss).1.deref = cs.deref ++ (runPushes cs ss).2.flatMap strBytes := by
  induction ss with
  | nil =>
    intro cs h1 h2
    exact ⟨h1, h2, by simp [runPushes]⟩
  | cons s rest ih =>
    intro cs h1 h2
    rcases Nat.lt_or_ge N (cs.len + (strBytes s).length) with hlen | hlen
    · rw [runPushes, push_str_too_long cs s hlen]
      exact ih cs h1 h2
    · rw [runPushes, push_str_ok cs s hlen]
      set cs' : ConstString N :=
        { data := writeBytes cs.data cs.len (strBytes s),
          len := cs.len + (strBytes s).length } with hcs'
      have h1' : cs'.data.length = N := by
        simp [hcs', length_writeBytes, h1]
      have h2' : cs'.len ≤ N := hlen
      have hderef : cs'.deref = cs.deref ++ strBytes s := by
        simp only [hcs', ConstString.deref]
        exact take_writeBytes_full (strBytes s) cs.data cs.len (by omega)
      rcases ih cs' h1' h2' with ⟨ia, ib, ic⟩
      refine ⟨ia, ib, ?_⟩
      simp only [ic, hderef, List.flatMap_cons, List.append_assoc]

/-- C9: for every `ConstString<N>` constructed by `new()` and mutated only
through `push_str`, the state reached after any sequence of calls satisfies
`len ≤ N`, and `data[..len]` (what `deref` returns) is exactly the UTF-8
concatenation of the slices whose `push_str` call returned `Ok` — in
particular it is the UTF-8 encoding of an actual string, so the unsafe
`from_utf8_unchecked` in `deref` never reads invalid UTF-8. -/
theorem constString_deref_valid (N : Nat) (ss : List String) :
    (runPushes (ConstString.new N) ss).1.len ≤ N ∧
    (runPushes (ConstString.new N) ss).1.deref =
      (runPushes (ConstString.new N) ss).2.flatMap strBytes ∧
    ∃ t : String, (runPushes (ConstString.new N) ss).1.deref = strBytes t := by
  have h := runPushes_inv (N := N) ss (ConstString.new N)
    (by simp [ConstString.new]) (by simp [ConstString.new])
  rcases h with ⟨_, hb, hc⟩
  have hnew : (ConstString.new N).deref = [] := by
    simp [ConstString.new, ConstString.deref]
  rw [hnew, List.nil_append] at hc
  exact ⟨hb, hc, hc ▸ flatMap_strBytes_is_encoding _⟩

end ConstStr

/-- Per-character ASCII uppercasing.  Rust's `str::to_uppercase` applies the
full Unicode uppercase mapping, whose tables live in the Rust standard
library, not in this repository; on strings whose characters are all ASCII
the two functions coincide, and this definition is only ever applied to such
strings (as a concrete instance for a witness, and on the generator
snippet's ASCII-literal data). -/
def asciiUppercase (s : String) : String := String.mk (s.data.map Char.toUpper)

/-! ## src/2025-10-30: the typestate pattern (`DataProcessor<State>`) -/

namespace Typestate

/-- The state marker types of the `states` module.  Modelling them as distinct
Lean types keeps the typestate discipline: `validate` only accepts
`DataProcessor Initial`, `process` only `DataProcessor Validated`, so an
invalid transition order is ill-typed, as in the Rust source. -/
inductive Initial | mk

inductive Validated | mk

inductive Processed | mk

/-- `DataProcessor<State> { data: String, state: State }`. -/
structure DataProcessor (State : Type) where
  data : String
  state : State

/-- `DataProcessor::new(data)`: constructor for the initial state. -/
def DataProcessor.new (data : String) : DataProcessor Initial :=
  { data := data, state := Initial.mk }

/-- `validate`: rejects empty data, otherwise moves to the `Validated` state
with the same data. -/
def DataProcessor.validate (self : DataProcessor Initial) :
    Except String (DataProcessor Validated) :=
  if self.data.isEmpty then
    Except.error "Data cannot be empty"
  else
    Except.ok { data := self.data, state := Validated.mk }

/-- `process`: moves to the `Processed` state, uppercasing the data with
`self.data.to_uppercase()`.  `str::to_uppercase` is a standard-library
function (the full Unicode uppercase mapping, whose tables are not part of
this repository), so it enters the embedding as an explicit parameter
`to_uppercase` — the same way the system allocator is an oracle in the
allocator snippet.  Everything proved below holds for every such function,
in particular for the real Unicode one. -/
def DataProcessor.process (to_uppercase : String → String)
    (self : DataProcessor Validated) : DataProcessor Processed :=
  { data := to_uppercase self.data, state := Processed.mk }

/-- `get_processed_data`: only callable in the `Processed` state. -/
def DataProcessor.get_processed_data (self : DataProcessor Processed) : String :=
  self.data

/-- A `Processed`-state value reachable through the public transitions
`new`, then `validate`, then `process`, starting from `orig`;
`to_uppercase` is the library uppercasing function `process` calls. -/
def reachableProcessed (to_uppercase : String → String) (orig : String)
    (p : DataProcessor Processed) : Prop :=
  ∃ v : DataProcessor Validated,
    (DataProcessor.new orig).validate = Except.ok v ∧
    p = v.process to_uppercase

/-- C2: every `Processed`-state value reachable through `new`/`validate`/
`process` carries the uppercase (`str::to_uppercase`, an arbitrary oracle
here) of the non-empty original string, and no `Processed` value can be
obtained from an empty initial string because `validate` rejects it. -/
theorem processed_data_spec (to_uppercase : String → String) (orig : String)
    (p : DataProcessor Processed)
    (h : reachableProcessed to_uppercase orig p) :
    orig ≠ "" ∧ p.data = to_uppercase orig ∧
    (DataProcessor.new "").validate = Except.error "Data cannot be empty" := by
  rcases h with ⟨v, hv, hp⟩
  unfold DataProcessor.new DataProcessor.validate at hv
  by_cases he : String.isEmpty orig
  · simp [he] at hv
  · simp [he] at hv
    refine ⟨by simpa [String.isEmpty_iff] using he, ?_, rfl⟩
    rw [hp, ← hv]
    rfl

/-- Witness for C2: `orig = "hello world"` (all-ASCII, where `asciiUppercase`
coincides with the Unicode mapping) reaches the `Processed` state carrying
the uppercased data. -/
theorem processed_data_spec_witness :
    "hello world" ≠ "" ∧
    (DataProcessor.process asciiUppercase
        { data := "hello world", state := Validated.mk }).data =
      asciiUppercase "hello world" ∧
    (DataProcessor.new "").validate = Except.error "Data cannot be empty" :=
  processed_data_spec asciiUppercase "hello world"
    (DataProcessor.process asciiUppercase
      { data := "hello world", state := Validated.mk })
    ⟨{ data := "hello world", state := Validated.mk }, rfl, rfl⟩

end Typestate

/-! ## src/2025-10-28: `DelayedValue`, `async_block` and the blocking executor -/

namespace AsyncDemo

/-- `std::task::Poll`. -/
inductive Poll (α : Type) where
  | ready (v : α)
  | pending
  deriving DecidableEq

/-- `DelayedValue<T> { start: Instant, duration: Duration, value: Option<T> }`.
Instants and durations are milliseconds as `Nat`; `start.elapsed()` at wall
time `now` is `now - start` (the clock is monotone, so `now ≥ start`). -/
structure DelayedValue (α : Type) where
  start : Nat
  duration : Nat
  value : Option α
  deriving DecidableEq

/-- `DelayedValue::new(duration, value)` called at wall time `now`
(`start: Instant::now()`). -/
def DelayedValue.new (now duration : Nat) (value : α) : DelayedValue α :=
  { start := now, duration := duration, value := some value }

/-- `DelayedValue::poll` at wall time `now`.  The result is `none` exactly
when the code panics: `self.value.take().unwrap()` applied to `None`.
Otherwise it returns the `Poll` result and the future's state after the call
(`take()` moves the value out on the ready path). -/
def DelayedValue.poll (self : DelayedValue α) (now : Nat) :
    Option (Poll α × DelayedValue α) :=
  if self.duration ≤ now - self.start then
    match self.value with
    | some v => some (Poll.ready v, { self with value := none })
    | none => none
  else
    some (Poll.pending, self)

/-- C3: once `poll` has returned `Poll::Ready`, any subsequent call to `poll`
panics, because the stored value has already been taken and `unwrap` is
applied to `None`.  (A subsequent call happens at a later wall time
`now' ≥ now`, and elapsed time is monotone, so the ready branch is taken
again and hits the `None`.) -/
theorem poll_after_ready_panics {α : Type} (dv dv' : DelayedValue α)
    (now now' : Nat) (v : α)
    (h : dv.poll now = some (Poll.ready v, dv')) (hm : now ≤ now') :
    dv'.poll now' = none := by
  unfold DelayedValue.poll at h
  by_cases hc : dv.duration ≤ now - dv.start
  · rw [if_pos hc] at h
    match hv : dv.value with
    | some w =>
      rw [hv] at h
      obtain ⟨hpoll, hdv'⟩ : Poll.ready (α := α) w = Poll.ready v ∧
          { dv with value := none } = dv' := by
        simpa using h
      unfold DelayedValue.poll
      rw [← hdv']
      have hc' : dv.duration ≤ now' - dv.start :=
        le_trans hc (Nat.sub_le_sub_right hm dv.start)
      simp [hc']
    | none =>
      rw [hv] at h
      exact absurd h (by simp)
  · rw [if_neg hc] at h
    exact absurd h (by simp)

/-- Witness for C3: a delay of 500 ms holding `42`, first polled at `now =
500` (ready), polled again at `now' = 510` (panic). -/
theorem poll_after_ready_panics_witness :
    (DelayedValue.new 0 500 (42 : Nat)).poll 500 =
      some (Poll.ready 42, { start := 0, duration := 500, value := none }) ∧
    ({ start := 0, duration := 500, value := none } :
        DelayedValue Nat).poll 510 = none :=
  ⟨by decide, poll_after_ready_panics (DelayedValue.new 0 500 42)
      { start := 0, duration := 500, value := none } 500 510 42 (by decide)
      (by decide)⟩

/-- The state of the `async_block` future: either not yet started, or
suspended at the `.await` of its `DelayedValue` (duration 500 ms, value 42,
created when the block first runs). -/
inductive ABState where
  | begun
  | awaiting (dv : DelayedValue Nat)
  deriving DecidableEq

/-- Polling `async_block` at wall time `now`: on first poll it creates
`DelayedValue::new(Duration::from_millis(500), 42)` and immediately polls it
(`.await`); on later polls it re-polls the stored future.  `none` is a
propagated panic. -/
def pollAB (st : ABState) (now : Nat) : Option (ABState × Poll Nat) :=
  match st with
  | ABState.begun =>
    ((DelayedValue.new now 500 42).poll now).map
      (fun pr => (ABState.awaiting pr.2, pr.1))
  | ABState.awaiting dv =>
    (dv.poll now).map (fun pr => (ABState.awaiting pr.2, pr.1))

/-- The state of the `async` block in `main`: running the first
`async_block().await`, or holding its result and running the second. -/
inductive MainState where
  | first (ab : ABState)
  | second (r1 : Nat) (ab : ABState)
  deriving DecidableEq

/-- Polling while in the second `.await` (factored out so that the first
await can fall through to it within a single poll, as the compiled state
machine does). -/
def pollSecond (r1 : Nat) (ab : ABState) (now : Nat) :
    Option (MainState × Poll Nat) :=
  match pollAB ab now with
  | none => none
  | some (ab', Poll.pending) => some (MainState.second r1 ab', Poll.pending)
  | some (ab', Poll.ready r2) =>
    some (MainState.second r1 ab', Poll.ready (r1 + r2))

/-- Polling the composed future of `main`
(`result1 + result2` after two sequential awaits of `async_block`). -/
def pollMain (st : MainState) (now : Nat) : Option (MainState × Poll Nat) :=
  match st with
  | MainState.first ab =>
    match pollAB ab now with
    | none => none
    | some (ab', Poll.pending) => some (MainState.first ab', Poll.pending)
    | some (_, Poll.ready r1) => pollSecond r1 ABState.begun now
  | MainState.second r1 ab => pollSecond r1 ab now

/-- The blocking polling loop of `main`: poll, and on `Pending` sleep 10 ms
and retry.  `fuel` bounds the number of iterations; `none` means the fuel ran
out (or a panic propagated), `some r` that the loop terminated printing
`Final result: r`. -/
def drive (st : MainState) (t : Nat) : Nat → Option Nat
  | 0 => none
  | fuel + 1 =>
    match pollMain st t with
    | none => none
    | some (_, Poll.ready r) => some r
    | some (st', Poll.pending) => drive st' (t + 10) fuel

/-- C4: the composed future of `main` (two sequential awaits of
`async_block`, each yielding 42), driven by the blocking polling loop
starting at time 0, terminates — 150 iterations of the 10 ms loop more than
cover the two 500 ms delays — and the final result is `84`. -/
theorem main_final_result :
    drive (MainState.first ABState.begun) 0 150 = some 84 := by decide

end AsyncDemo

/-! ## src/2025-10-31: `WhimsicalAllocator` -/

namespace Allocator

/-- `std::alloc::Layout`: a requested size and alignment. -/
structure Layout where
  size : Nat
  align : Nat
  deriving DecidableEq

/-- `WhimsicalAllocator { allocated_bytes: AtomicUsize }`. -/
structure WhimsicalAllocator where
  allocated_bytes : Nat
  deriving DecidableEq

/-- `WhimsicalAllocator::alloc`.  The system allocator it delegates to is an
oracle `sysAlloc : Layout → Nat` returning the address of the allocation,
with `0` for the null pointer (failure).  The result is the returned pointer
together with the allocator state after the call. -/
def WhimsicalAllocator.alloc (self : WhimsicalAllocator)
    (sysAlloc : Layout → Nat) (layout : Layout) : Nat × WhimsicalAllocator :=
  if layout.size % 4 ≠ 0 then
    (0, self)
  else if layout.align > 4 then
    (0, self)
  else
    let ptr := sysAlloc { size := layout.size, align := 4 }
    if ptr ≠ 0 then
      (ptr, { allocated_bytes := self.allocated_bytes + layout.size })
    else
      (ptr, self)

/-- C5: `alloc` returns a null pointer and leaves `allocated_bytes` unchanged
whenever the layout's size is not a multiple of 4 or its alignment exceeds 4;
otherwise it returns whatever the system allocator returns for
`(layout.size, align 4)` and, when that is non-null, increases
`allocated_bytes` by the layout's size (and leaves it unchanged when the
system allocation fails). -/
theorem alloc_spec (a : WhimsicalAllocator) (sysAlloc : Layout → Nat)
    (layout : Layout) :
    (layout.size % 4 ≠ 0 ∨ layout.align > 4 →
      a.alloc sysAlloc layout = (0, a)) ∧
    (layout.size % 4 = 0 → layout.align ≤ 4 →
      (a.alloc sysAlloc layout).1 = sysAlloc { size := layout.size, align := 4 } ∧
      (sysAlloc { size := layout.size, align := 4 } ≠ 0 →
        (a.alloc sysAlloc layout).2.allocated_bytes =
          a.allocated_bytes + layout.size) ∧
      (sysAlloc { size := layout.size, align := 4 } = 0 →
        (a.alloc sysAlloc layout).2 = a)) := by
  constructor
  · rintro (h | h) <;> unfold WhimsicalAllocator.alloc
    · simp [h]
    · by_cases hs : layout.size % 4 = 0
      · simp [hs, h]
      · simp [hs]
  · intro hs ha
    unfold WhimsicalAllocator.alloc
    have ha' : ¬ layout.align > 4 := Nat.not_lt_of_le ha
    by_cases hp : sysAlloc { size := layout.size, align := 4 } = 0
    · simp [hs, ha', hp]
    · simp [hs, ha', hp]

/-- Witness for C5 with the system allocator modelled as
`fun l => 1000 + l.size`: a 3-byte request fails without touching the
counter, an 8-byte aligned-4 request delegates and adds 8. -/
theorem alloc_spec_witness :
    ({ allocated_bytes := 0 } : WhimsicalAllocator).alloc
        (fun l => 1000 + l.size) { size := 3, align := 1 } =
      (0, { allocated_bytes := 0 }) ∧
    (({ allocated_bytes := 0 } : WhimsicalAllocator).alloc
        (fun l => 1000 + l.size) { size := 8, align := 4 }).1 =
      (fun l : Layout => 1000 + l.size) { size := 8, align := 4 } ∧
    (({ allocated_bytes := 0 } : WhimsicalAllocator).alloc
        (fun l => 1000 + l.size) { size := 8, align := 4 }).2.allocated_bytes =
      0 + 8 := by
  refine ⟨(alloc_spec { allocated_bytes := 0 } (fun l => 1000 + l.size)
      { size := 3, align := 1 }).1 (Or.inl (by decide)), ?_, ?_⟩
  · exact ((alloc_spec { allocated_bytes := 0 } (fun l => 1000 + l.size)
      { size := 8, align := 4 }).2 (by decide) (by decide)).1
  · exact ((alloc_spec { allocated_bytes := 0 } (fun l => 1000 + l.size)
      { size := 8, align := 4 }).2 (by decide) (by decide)).2.1 (by decide)

end Allocator

/-! ## src/2025-10-26: the generator-driving demo -/

namespace GeneratorDemo

/-- The `Action` enum. -/
inductive Action where
  | append (s : String)
  | uppercase
  | reverse

/-- One iteration of the generator's loop body: the state transformation of
the matched `Action` arm (the `Box::leak` in the source only serves to give
the freshly built `String` a `'static` lifetime; the resulting state data is
the string built here).  The `Uppercase` arm calls `str::to_uppercase`; the
snippet's data is all ASCII, where `asciiUppercase` coincides with the
library's Unicode mapping. -/
def applyAction (data : String) : Action → String
  | Action.append s => data ++ s
  | Action.uppercase => asciiUppercase data
  | Action.reverse => String.mk data.data.reverse

/-- The yield/return trace of the generator's loop body run from `state`:
for each action in order it updates `state` and yields it, and after the
loop it returns the final state.  The first component lists the yielded
states in order, the second is the returned state. -/
def generatorBodyTrace (state : String) : List Action → List String × String
  | [] => ([], state)
  | a :: rest =>
    let st := applyAction state a
    let r := generatorBodyTrace st rest
    (st :: r.1, r.2)

/-- `process_actions(initial_state, actions)`: returns the generator
`static move |mut state: State<'a>| { … }`.  In the source, `state` is the
generator's **resume argument** — the captured `initial_state` is never read
by the body — so the trace is a function of the first resume argument
`resumeArg` and of `actions`, and is independent of `initial_state`. -/
def process_actions (initial_state : String) (actions : List Action)
    (resumeArg : String) : List String × String :=
  generatorBodyTrace resumeArg actions

/-- C6 (code bug): the loop body would yield `"hello world"`,
`"HELLO WORLD"`, `"DLROW OLLEH"` and return the last — but only when the
generator's first resume argument is `"hello"`, and that holds for **every**
`initial_state`: the `State` carrying `"hello"` that `main` passes to
`process_actions` is ignored by the generator, and the driving loop never
supplies a `State` resume argument at all (it calls `poll` on a generator
and passes `resume` a `&mut Context`, neither of which type-checks), so the
claimed run is unreachable in the program as written. -/
theorem generator_demo_divergence :
    ∀ initial_state : String,
      process_actions initial_state
          [Action.append " world", Action.uppercase, Action.reverse]
          "hello" =
        (["hello world", "HELLO WORLD", "DLROW OLLEH"], "DLROW OLLEH") := by
  intro initial_state
  rfl

end GeneratorDemo

/-! ## src/2025-10-21: closures owning moved state -/

namespace ClosureDemo

/-- `outer_function`: each call builds a fresh `String::from("My precious!")`
and moves it into the closure `move || secret` it returns, so every returned
closure owns its own copy.  Because the closure's body returns the captured
non-`Copy` `String` by value, the closure is `FnOnce`: a closure value is
either `some s` (still owning its capture `s`) or `none` (already consumed —
moved from). -/
def outer_function (_ : Unit) : Option String :=
  some "My precious!"

/-- Calling the `FnOnce` closure (`FnOnce::call_once` consumes `self`):
returns the owned `String` together with the moved-from closure value, or
`none` when the closure was already consumed — in Rust that use of a moved
value is error E0382 and the program is rejected at compile time. -/
def callOnce (c : Option String) : Option (String × Option String) :=
  match c with
  | some s => some (s, none)
  | none => none

/-- The three `println!("{}", …())` invocations of `main` in order —
`my_closure()`, `another_closure()`, `my_closure()` again — threading each
closure's ownership state through its calls.  The result is the list of
printed lines, or `none` when some call uses a moved value (and the program
therefore does not compile and prints nothing). -/
def mainPrints : Option (List String) :=
  let my_closure := outer_function ()
  match callOnce my_closure with
  | none => none
  | some (p1, my_closure) =>
    let another_closure := outer_function ()
    match callOnce another_closure with
    | none => none
    | some (p2, _) =>
      match callOnce my_closure with
      | none => none
      | some (p3, _) => some [p1, p2, p3]

/-- C7 (code bug): a closure that still owns its capture does return
`"My precious!"` when invoked (second conjunct) — but the third invocation
`my_closure()` in `main` re-uses the closure already consumed by the first
call, so the sequence of three prints is unreachable: `main` is a
use-after-move error and never prints three lines (first conjunct). -/
theorem closure_demo_third_call_moved :
    mainPrints = none ∧
    callOnce (outer_function ()) = some ("My precious!", none) := by
  exact ⟨rfl, rfl⟩

end ClosureDemo

/-! ## src/2025-11-01: zero-sized types -/

namespace ZstDemo

/-- The fragment of Rust's type grammar the snippet measures, with
constructors for `struct Marker;` (a field-less struct), the unit type `()`,
and arrays `[T; n]`. -/
inductive RustTy where
  | marker
  | unit
  | array (n : Nat) (t : RustTy)

/-- `mem::size_of`, by the layout rules the Rust language guarantees for
these types: a struct with no fields is zero-sized, `()` is zero-sized, and
`[T; n]` occupies `n * size_of::<T>()` bytes. -/
def RustTy.sizeOf : RustTy → Nat
  | RustTy.marker => 0
  | RustTy.unit => 0
  | RustTy.array n t => n * t.sizeOf

/-- C8: `Marker` is a zero-sized type — `mem::size_of::<Marker>()` is 0, and
an array of 1,000,000 `Marker` values likewise occupies 0 bytes. -/
theorem marker_is_zst :
    RustTy.marker.sizeOf = 0 ∧
    (RustTy.array 1000000 RustTy.marker).sizeOf = 0 := by
  exact ⟨rfl, by simp [RustTy.sizeOf]⟩

end ZstDemo
